import Mathlib

/-!
Verification of the EchoTorch `ESN` orchestrator
(`src/echotorch/nn/reservoir/ESN.py`) against its specification.

The embedding is shallow: the `ESN` module instance becomes an explicit
state record, `forward`/`reset`/`finalize`/`reset_hidden` become functions
on that record, and Python exceptions become an `Except` error type.
Tensors are embedded as nested lists: a batch is a list of sequences
(`List (List α)`), the outer list indexing the batch dimension and the
inner list the time dimension, so the Python slice `t[:, washout:]`
becomes `List.map (List.drop washout)`.

The two collaborators (`ESNCell`, `RRCell`) are not part of the source
tree; where their behaviour decides a claim they are modelled from the
spec (see the doc comments below).
-/

/-- Python exception classes relevant to the spec's error taxonomy
(§7): `ModeError`, `ConfigurationError`, and the untyped `TypeError`
Python raises when subscripting `None` (as in `y[:, washout:]` with
`y = None`). -/
inductive PyError where
  | modeError
  | configurationError
  | typeError
deriving DecidableEq, Repr

/-- The `size` argument passed to a matrix generator: the source passes a
2-tuple for `w` and `w_in` and a bare integer for `w_bias`
(`ESN._generate_matrices`). -/
inductive MatSize where
  | one (n : Nat)
  | two (r c : Nat)
deriving DecidableEq, Repr

/-- A generator slot value, as dispatched on by `ESN._generate_matrices`:
a `mg.MatrixGenerator` instance (its `generate` method), a plain callable,
or a literal pre-built matrix.  Generator and callable may consume shared
random-stream state `σ`, threaded explicitly. -/
inductive GenSpec (σ M : Type) where
  | generator (g : MatSize → σ → M × σ)
  | invocable (f : MatSize → σ → M × σ)
  | literal (m : M)

/-- One branch of `ESN._generate_matrices`: `isinstance(_, MatrixGenerator)`
dispatches to `.generate(size=...)`, `callable(_)` dispatches to a call
with the size, and anything else is used verbatim as the matrix (the
random-stream state is untouched in the literal case). -/
def resolveMatrix {σ M : Type} (spec : GenSpec σ M) (sz : MatSize) (s : σ) : M × σ :=
  match spec with
  | .generator g => g sz s
  | .invocable f => f sz s
  | .literal m => (m, s)

/-- `ESN._generate_matrices`: resolve `w` with size
`(hidden_dim, hidden_dim)`, then `w_in` with `(hidden_dim, input_dim)`,
then `w_bias` with `hidden_dim`, in that textual order, threading any
shared random-stream state left to right. -/
def generateMatrices {σ M : Type} (hiddenDim inputDim : Nat)
    (wGen winGen wbiasGen : GenSpec σ M) (s : σ) : (M × M × M) × σ :=
  let p1 := resolveMatrix wGen (MatSize.two hiddenDim hiddenDim) s
  let p2 := resolveMatrix winGen (MatSize.two hiddenDim inputDim) p1.2
  let p3 := resolveMatrix wbiasGen (MatSize.one hiddenDim) p2.2
  ((p1.1, p2.1, p3.1), p3.2)

/-- Modelled from the spec: the reservoir engine (`ESNCell`, not in the
source tree) computes, from a current recurrent state and one input
sequence, the hidden-state trajectory — one hidden state per input
timestep, each obtained from the previous by the (abstract) state-update
`step`. -/
def cellTrajectory {H I : Type} (step : H → I → H) : H → List I → List H
  | _, [] => []
  | h, x :: xs =>
    let h1 := step h x
    h1 :: cellTrajectory step h1 xs

/-- Modelled from the spec: the reservoir engine processes a batch of
sequences, threading its recurrent state through the batch and returning
the per-sequence trajectories together with the final recurrent state. -/
def cellRunBatch {H I : Type} (step : H → I → H) : H → List (List I) → List (List H) × H
  | h, [] => ([], h)
  | h, seq :: rest =>
    let traj := cellTrajectory step h seq
    let r := cellRunBatch step (traj.getLastD h) rest
    (traj :: r.1, r.2)

/-- Modelled from the spec: `ESNCell.__call__(u, reset_state)` — if
`reset_state` holds the recurrent state is reinitialised (to the engine's
initial condition `hZero`) before the batch is processed (§4.3 step 1,
§6). -/
def esnCellCompute {H I : Type} (step : H → I → H) (hZero : H) (hidden : H)
    (u : List (List I)) (resetState : Bool) : List (List H) × H :=
  cellRunBatch step (if resetState then hZero else hidden) u

/-- The Python time-axis slice `t[:, washout:]` from `ESN.forward`:
drop the first `washout` timesteps of every sequence in the batch. -/
def timeSlice {α : Type} (washout : Nat) (t : List (List α)) : List (List α) :=
  t.map (List.drop washout)

/-- Modelled from the spec: the observable state of the readout trainer
(`RRCell`, not in the source tree) — the statistics accumulated since the
last reset (one entry per accumulation call, recording the exact
(states, targets) pair it received) and the fitted map, absent before the
first `finalize` (§6). -/
structure RRCellState (H O : Type) where
  stats : List (List (List H) × List (List O))
  w_out : Option (H → O)

/-- Modelled from the spec: `RRCell.reset()` discards the fitted map and
all accumulated statistics (§6). -/
def rrReset {H O : Type} (_r : RRCellState H O) : RRCellState H O :=
  { stats := [], w_out := none }

/-- Modelled from the spec: the readout's training-mode call accumulates
the (states, targets) pair it is given (§6 `accumulate`). -/
def rrAccumulate {H O : Type} (r : RRCellState H O)
    (xs : List (List H)) (ys : List (List O)) : RRCellState H O :=
  { r with stats := r.stats ++ [(xs, ys)] }

/-- Modelled from the spec: the readout's inference-mode call applies the
currently fitted map elementwise to the state trajectory; calling it
before any `finalize` is a `ModeError` (§6 `predict`, §7). -/
def rrPredict {H O : Type} (r : RRCellState H O) (xs : List (List H)) :
    Except PyError (List (List O)) :=
  match r.w_out with
  | none => .error .modeError
  | some f => .ok (xs.map (fun seq => seq.map f))

/-- Modelled from the spec: `RRCell.finalize()` solves the regression in
closed form over the accumulated statistics and stores the map; it fails
with a `ModeError` when no statistics have been accumulated (§6, §7). -/
def rrFinalize {H O : Type} (solve : List (List (List H) × List (List O)) → (H → O))
    (r : RRCellState H O) : Except PyError (RRCellState H O) :=
  if r.stats.isEmpty then .error .modeError
  else .ok { r with w_out := some (solve r.stats) }

/-- The observable state of an `ESN` module instance: the three resolved
weight matrices, the stored washout, the `torch.nn.Module` training flag
(`True` after construction), the reservoir's recurrent state, and the
readout's state. -/
structure ESN (M H O : Type) where
  w : M
  w_in : M
  w_bias : M
  washout : Nat
  training : Bool
  hidden : H
  output : RRCellState H O

/-- The result of `ESN.forward`: the predicted output trajectory in
inference mode, or the readout's accumulation acknowledgement in training
mode (the spec mandates no particular training-mode return value). -/
inductive ForwardResult (O : Type) where
  | predictions (y : List (List O))
  | accumulated

/-- `ESN.__init__`: store the washout, resolve the three matrices via
`_generate_matrices`, and build the reservoir and readout; the module
starts in training mode with no fitted readout map and no accumulated
statistics. -/
def ESN.init {σ M H O : Type} (hiddenDim inputDim : Nat)
    (wGen winGen wbiasGen : GenSpec σ M) (washout : Nat) (hZero : H)
    (rng : σ) : ESN M H O × σ :=
  let r := generateMatrices hiddenDim inputDim wGen winGen wbiasGen rng
  ({ w := r.1.1, w_in := r.1.2.1, w_bias := r.1.2.2, washout := washout,
     training := true, hidden := hZero,
     output := { stats := [], w_out := none } }, r.2)

/-- `ESN.forward(u, y, reset_state)`: compute the hidden trajectory with
the reservoir engine, then — outside training mode — call the readout on
`hidden_states[:, washout:]` with no targets; in training mode call it on
`hidden_states[:, washout:]` and `y[:, washout:]` (subscripting a missing
`y` is a Python `TypeError`). -/
def ESN.forward {M H I O : Type} (step : H → I → H) (hZero : H) (s : ESN M H O)
    (u : List (List I)) (y : Option (List (List O))) (resetState : Bool) :
    Except PyError (ForwardResult O × ESN M H O) :=
  let hc := esnCellCompute step hZero s.hidden u resetState
  if s.training = false then
    match rrPredict s.output (timeSlice s.washout hc.1) with
    | .error e => .error e
    | .ok preds => .ok (.predictions preds, { s with hidden := hc.2 })
  else
    match y with
    | none => .error .typeError
    | some ys =>
      .ok (.accumulated,
        { s with hidden := hc.2,
                 output := rrAccumulate s.output (timeSlice s.washout hc.1)
                             (timeSlice s.washout ys) })

/-- `ESN.reset()`: reset the output layer, then `self.train(True)`. -/
def ESN.reset {M H O : Type} (s : ESN M H O) : ESN M H O :=
  { s with output := rrReset s.output, training := true }

/-- `ESN.finalize()`: finalize the output layer's training, then
`self.train(False)` (reached only when the readout's solve succeeds). -/
def ESN.finalize {M H O : Type}
    (solve : List (List (List H) × List (List O)) → (H → O))
    (s : ESN M H O) : Except PyError (ESN M H O) :=
  match rrFinalize solve s.output with
  | .error e => .error e
  | .ok out => .ok { s with output := out, training := false }

/-- `ESN.reset_hidden()`: delegate to the reservoir engine's
`reset_hidden`, reinitialising only the recurrent state. -/
def ESN.resetHidden {M H O : Type} (hZero : H) (s : ESN M H O) : ESN M H O :=
  { s with hidden := hZero }

/-- Whether an `Except` computation returned normally (no exception). -/
def exceptIsOk {ε α : Type} : Except ε α → Bool
  | .ok _ => true
  | .error _ => false

/-! ### Trajectory-shape lemmas for the modelled reservoir engine -/

theorem cellTrajectory_length {H I : Type} (step : H → I → H) (h : H) (u : List I) :
    (cellTrajectory step h u).length = u.length := by
  induction u generalizing h with
  | nil => rfl
  | cons x xs ih => simp [cellTrajectory, ih]

theorem cellRunBatch_fst_length {H I : Type} (step : H → I → H) (h : H)
    (u : List (List I)) : ((cellRunBatch step h u).1).length = u.length := by
  induction u generalizing h with
  | nil => rfl
  | cons seq rest ih => simp [cellRunBatch, ih]

theorem cellRunBatch_mem_length {H I : Type} (step : H → I → H) (h : H)
    (u : List (List I)) (t : List H) (ht : t ∈ (cellRunBatch step h u).1) :
    ∃ seq ∈ u, t.length = seq.length := by
  induction u generalizing h with
  | nil => simp [cellRunBatch] at ht
  | cons seq rest ih =>
    simp only [cellRunBatch, List.mem_cons] at ht
    rcases ht with h1 | h2
    · exact ⟨seq, List.mem_cons_self seq rest,
        h1 ▸ cellTrajectory_length step h seq⟩
    · rcases ih (List.getLastD (cellTrajectory step h seq) h) h2 with ⟨sq, hsq, hl⟩
      exact ⟨sq, List.mem_cons_of_mem seq hsq, hl⟩

/-! ### Concrete instances used by witnesses and counterexamples -/

/-- A concrete state-update function for the modelled reservoir engine. -/
def stepEx : Int → Int → Int := fun h x => h + x

/-- A concrete closed-form solver for the modelled readout trainer. -/
def solveEx : List (List (List Int) × List (List Int)) → (Int → Int) :=
  fun _ => fun h => h

/-- A concrete fitted readout map. -/
def idMap : Int → Int := fun h => h

/-- A freshly constructed model: washout 1, training mode, empty readout. -/
def esnFresh : ESN Int Int Int :=
  { w := 1, w_in := 2, w_bias := 3, washout := 1, training := true,
    hidden := 0, output := { stats := [], w_out := none } }

/-- A model in inference mode with a fitted readout map. -/
def esnInfer : ESN Int Int Int :=
  { esnFresh with training := false,
                  output := { stats := [], w_out := some idMap } }

/-- A model in training mode with one accumulated statistic. -/
def esnTrained : ESN Int Int Int :=
  { esnFresh with output := { stats := [([[1]], [[1]])], w_out := none } }

/-- The state reached from `esnTrained` by a successful `finalize`. -/
def esnFinalized : ESN Int Int Int :=
  { esnTrained with training := false,
                    output := { stats := [([[1]], [[1]])],
                                w_out := some (solveEx [([[1]], [[1]])]) } }

/-- The state reached from `esnTrained` by a training-mode forward call on
the batch `[[1, 2]]` with targets `[[3, 4]]`. -/
def esnAfterFwd : ESN Int Int Int :=
  { esnTrained with hidden := 3,
                    output := { stats := [([[1]], [[1]]), ([[3]], [[4]])],
                                w_out := none } }

/-! ### Claims -/

/-- C4: matrix resolution dispatches on the three generator forms — a
generator-capable value is asked to `generate` the shape, an invocable
value is invoked with the shape, and anything else is used verbatim as
the matrix; in particular, literal matrices supplied for all three slots
reach the constructed model unchanged and consume no generator state. -/
theorem C4_generator_dispatch {σ M H O : Type}
    (g f : MatSize → σ → M × σ) (m : M) (sz : MatSize) (st : σ)
    (hD iD wo : Nat) (hZero : H) (mw mi mb : M) :
    resolveMatrix (GenSpec.generator g) sz st = g sz st ∧
    resolveMatrix (GenSpec.invocable f) sz st = f sz st ∧
    resolveMatrix (GenSpec.literal m) sz st = (m, st) ∧
    (@ESN.init σ M H O hD iD (GenSpec.literal mw) (GenSpec.literal mi)
        (GenSpec.literal mb) wo hZero st).1.w = mw ∧
    (@ESN.init σ M H O hD iD (GenSpec.literal mw) (GenSpec.literal mi)
        (GenSpec.literal mb) wo hZero st).1.w_in = mi ∧
    (@ESN.init σ M H O hD iD (GenSpec.literal mw) (GenSpec.literal mi)
        (GenSpec.literal mb) wo hZero st).1.w_bias = mb ∧
    (@ESN.init σ M H O hD iD (GenSpec.literal mw) (GenSpec.literal mi)
        (GenSpec.literal mb) wo hZero st).2 = st :=
  ⟨rfl, rfl, rfl, rfl, rfl, rfl, rfl⟩

/-- C6: `reset` is idempotent — a second consecutive `reset` leaves the
model in the same observable state as the first, namely training mode
with no fitted readout map and no accumulated statistics. -/
theorem C6_reset_idempotent {M H O : Type} (s : ESN M H O) :
    ESN.reset (ESN.reset s) = ESN.reset s ∧
    (ESN.reset s).training = true ∧
    (ESN.reset s).output.stats = [] ∧
    (ESN.reset s).output.w_out = none :=
  ⟨rfl, rfl, rfl, rfl⟩

/-- C9: `reset_hidden` resets only the reservoir's recurrent state; the
readout's fitted map and accumulated statistics, the training flag, and
the weight matrices are unchanged. -/
theorem C9_reset_hidden_frame {M H O : Type} (hZero : H) (s : ESN M H O) :
    (ESN.resetHidden hZero s).hidden = hZero ∧
    (ESN.resetHidden hZero s).output.w_out = s.output.w_out ∧
    (ESN.resetHidden hZero s).output.stats = s.output.stats ∧
    (ESN.resetHidden hZero s).training = s.training ∧
    (ESN.resetHidden hZero s).w = s.w ∧
    (ESN.resetHidden hZero s).w_in = s.w_in ∧
    (ESN.resetHidden hZero s).w_bias = s.w_bias :=
  ⟨rfl, rfl, rfl, rfl, rfl, rfl, rfl⟩

/-- C10: in inference mode, `forward` never reads its target argument —
the returned value (output and post-call state alike) is identical for
any two target arguments, `none` included. -/
theorem C10_inference_ignores_targets {M H I O : Type} (step : H → I → H)
    (hZero : H) (s : ESN M H O) (u : List (List I))
    (y y' : Option (List (List O))) (rs : Bool)
    (hInf : s.training = false) :
    ESN.forward step hZero s u y rs = ESN.forward step hZero s u y' rs := by
  simp [ESN.forward, hInf]

/-- Witness for C10: a concrete inference-mode model for which a forward
call with targets returns exactly what the same call without targets
returns. -/
theorem C10_inference_ignores_targets_witness :
    esnInfer.training = false ∧
    ESN.forward stepEx 0 esnInfer [[(1 : Int), 2]] (some [[(5 : Int), 5]]) true =
      ESN.forward stepEx 0 esnInfer [[(1 : Int), 2]] none true :=
  ⟨rfl, C10_inference_ignores_targets stepEx 0 esnInfer [[(1 : Int), 2]]
    (some [[(5 : Int), 5]]) none true rfl⟩

/-! ### Frame-inversion helpers shared by the mode/matrix claims -/

theorem forward_ok_frame {M H I O : Type} (step : H → I → H) (hZero : H)
    (s : ESN M H O) (u : List (List I)) (y : Option (List (List O))) (rs : Bool)
    (r : ForwardResult O) (s' : ESN M H O)
    (hok : ESN.forward step hZero s u y rs = .ok (r, s')) :
    s'.w = s.w ∧ s'.w_in = s.w_in ∧ s'.w_bias = s.w_bias ∧
    s'.washout = s.washout ∧ s'.training = s.training := by
  simp only [ESN.forward] at hok
  split at hok
  · split at hok
    · exact absurd hok (by simp)
    · injection hok with h
      injection h with h1 h2
      subst h2
      exact ⟨rfl, rfl, rfl, rfl, rfl⟩
  · split at hok
    · exact absurd hok (by simp)
    · injection hok with h
      injection h with h1 h2
      subst h2
      exact ⟨rfl, rfl, rfl, rfl, rfl⟩

theorem finalize_ok_frame {M H O : Type}
    (solve : List (List (List H) × List (List O)) → (H → O))
    (s : ESN M H O) (s' : ESN M H O)
    (hok : ESN.finalize solve s = .ok s') :
    s'.w = s.w ∧ s'.w_in = s.w_in ∧ s'.w_bias = s.w_bias ∧
    s'.washout = s.washout ∧ s'.hidden = s.hidden ∧ s'.training = false := by
  simp only [ESN.finalize, rrFinalize] at hok
  split at hok
  · exact absurd hok (by simp)
  · injection hok with h
    subst h
    exact ⟨rfl, rfl, rfl, rfl, rfl, rfl⟩

/-- C1: in every forward call on sequences of time length `L` with
washout `W < L`, the states reaching the readout are exactly timesteps
`W..L-1` of the trajectory — `L − W` timesteps per sequence, index `j` of
the slice being timestep `W + j` — in training mode handed to the
accumulation together with the identically sliced target batch, in
inference mode handed to the prediction (the returned outputs are the
fitted map applied to exactly that slice). -/
theorem C1_washout_slicing {M H I O : Type} (step : H → I → H) (hZero : H)
    (s : ESN M H O) (u : List (List I)) (ys : List (List O)) (rs : Bool)
    (L : Nat) (hW : s.washout < L) (hu : ∀ seq ∈ u, seq.length = L) :
    (s.training = true →
      ESN.forward step hZero s u (some ys) rs =
        .ok (ForwardResult.accumulated,
          { s with hidden := (esnCellCompute step hZero s.hidden u rs).2,
                   output := rrAccumulate s.output
                     (timeSlice s.washout
                       (esnCellCompute step hZero s.hidden u rs).1)
                     (timeSlice s.washout ys) })) ∧
    (∀ (f : H → O) (y : Option (List (List O))), s.training = false →
      s.output.w_out = some f →
        ESN.forward step hZero s u y rs =
          .ok (ForwardResult.predictions
            ((timeSlice s.washout
              (esnCellCompute step hZero s.hidden u rs).1).map (List.map f)),
            { s with hidden := (esnCellCompute step hZero s.hidden u rs).2 })) ∧
    (∀ t ∈ timeSlice s.washout (esnCellCompute step hZero s.hidden u rs).1,
        t.length = L - s.washout) ∧
    (∀ traj ∈ (esnCellCompute step hZero s.hidden u rs).1, ∀ j : Nat,
        (List.drop s.washout traj)[j]? = traj[s.washout + j]?) ∧
    0 < L - s.washout := by
  refine ⟨?_, ?_, ?_, ?_, by omega⟩
  · intro hTrain
    simp [ESN.forward, hTrain]
  · intro f y hInf hmap
    simp [ESN.forward, hInf, rrPredict, hmap]
  · intro t ht
    simp only [timeSlice, esnCellCompute, List.mem_map] at ht
    rcases ht with ⟨traj, htraj, rfl⟩
    rcases cellRunBatch_mem_length step _ u traj htraj with ⟨seq, hseq, hlen⟩
    rw [List.length_drop, hlen, hu seq hseq]
  · intro traj _ j
    exact List.getElem?_drop traj s.washout j

/-- Witness for C1: concrete forward calls with washout 1 on sequences of
length 2 — a training-mode call whose accumulation receives the one-step
slices of states and targets, and an inference-mode call whose returned
outputs are the fitted map applied to the one-step slice. -/
theorem C1_washout_slicing_witness :
    esnFresh.training = true ∧ esnInfer.training = false ∧
    esnFresh.washout < 2 ∧ (∀ seq ∈ [[(1 : Int), 2]], seq.length = 2) ∧
    ESN.forward stepEx 0 esnFresh [[(1 : Int), 2]] (some [[(10 : Int), 20]])
        true =
      .ok (ForwardResult.accumulated,
        { esnFresh with
            hidden :=
              (esnCellCompute stepEx 0 esnFresh.hidden [[(1 : Int), 2]] true).2,
            output := rrAccumulate esnFresh.output
              (timeSlice esnFresh.washout
                (esnCellCompute stepEx 0 esnFresh.hidden [[(1 : Int), 2]]
                  true).1)
              (timeSlice esnFresh.washout [[(10 : Int), 20]]) }) ∧
    ESN.forward stepEx 0 esnInfer [[(1 : Int), 2]] none true =
      .ok (ForwardResult.predictions
        ((timeSlice esnInfer.washout
          (esnCellCompute stepEx 0 esnInfer.hidden [[(1 : Int), 2]]
            true).1).map (List.map idMap)),
        { esnInfer with
            hidden :=
              (esnCellCompute stepEx 0 esnInfer.hidden [[(1 : Int), 2]]
                true).2 }) ∧
    (∀ t ∈ timeSlice esnFresh.washout
        (esnCellCompute stepEx 0 esnFresh.hidden [[(1 : Int), 2]] true).1,
      t.length = 2 - esnFresh.washout) :=
  ⟨rfl, rfl, by decide, by decide,
    (C1_washout_slicing stepEx 0 esnFresh [[(1 : Int), 2]] [[(10 : Int), 20]]
      true 2 (by decide) (by decide)).1 rfl,
    (C1_washout_slicing stepEx 0 esnInfer [[(1 : Int), 2]] [[(10 : Int), 20]]
      true 2 (by decide) (by decide)).2.1 idMap none rfl rfl,
    (C1_washout_slicing stepEx 0 esnFresh [[(1 : Int), 2]] [[(10 : Int), 20]]
      true 2 (by decide) (by decide)).2.2.1⟩

/-- C2 counterexample: supplying targets in inference mode does not raise
at all (the call succeeds), and omitting targets in training mode raises
Python's `TypeError` from subscripting `None`, not a `ModeError`. -/
theorem C2_mode_error_counterexample :
    exceptIsOk (ESN.forward stepEx 0 esnInfer [[(1 : Int)]]
        (some [[(9 : Int)]]) true) = true ∧
    ESN.forward stepEx 0 esnFresh [[(1 : Int)]] none true =
      .error PyError.typeError :=
  ⟨rfl, rfl⟩

/-- C2 (amended): no `ModeError` is raised on a mode/target mismatch — in
inference mode a supplied target batch is silently ignored (the call
returns exactly what the target-free call returns), and in training mode
an omitted target batch raises an untyped `TypeError` (subscripting
`None`), not a `ModeError`. -/
theorem C2_mode_mismatch_behaviour {M H I O : Type} (step : H → I → H)
    (hZero : H) (s t : ESN M H O) (u : List (List I)) (ys : List (List O))
    (rs : Bool) (hInf : s.training = false) (hTr : t.training = true) :
    ESN.forward step hZero s u (some ys) rs =
      ESN.forward step hZero s u none rs ∧
    ESN.forward step hZero t u none rs = .error PyError.typeError := by
  constructor
  · simp [ESN.forward, hInf]
  · simp [ESN.forward, hTr]

/-- Witness for C2 (amended): concrete inference- and training-mode
models exhibiting the silent ignore and the `TypeError`. -/
theorem C2_mode_mismatch_behaviour_witness :
    esnInfer.training = false ∧ esnFresh.training = true ∧
    ESN.forward stepEx 0 esnInfer [[(1 : Int)]] (some [[(9 : Int)]]) true =
      ESN.forward stepEx 0 esnInfer [[(1 : Int)]] none true :=
  ⟨rfl, rfl,
    (C2_mode_mismatch_behaviour stepEx 0 esnInfer esnFresh [[(1 : Int)]]
      [[(9 : Int)]] true rfl rfl).1⟩

/-- C3 counterexample: with washout 1 and a sequence of length 1
(washout ≥ L) the forward call raises nothing — it returns normally. -/
theorem C3_config_error_counterexample :
    exceptIsOk (ESN.forward stepEx 0 esnInfer [[(5 : Int)]] none true) = true :=
  rfl

/-- C3 (amended): when washout ≥ L the forward call does not raise a
`ConfigurationError`; it silently returns an empty result — in inference
mode one empty (zero-timestep) predicted sequence per batch element, and
in training mode a normal return that accumulates empty (zero-timestep)
state slices. -/
theorem C3_washout_too_long_empty_result {M H I O : Type} (step : H → I → H)
    (hZero : H) (s : ESN M H O) (u : List (List I)) (ys : List (List O))
    (rs : Bool) (hL : ∀ seq ∈ u, seq.length ≤ s.washout) :
    (∀ f : H → O, s.training = false → s.output.w_out = some f →
      ∃ preds, ESN.forward step hZero s u none rs =
          .ok (ForwardResult.predictions preds,
            { s with hidden := (esnCellCompute step hZero s.hidden u rs).2 }) ∧
        preds.length = u.length ∧ ∀ p ∈ preds, p = []) ∧
    (s.training = true →
      ∃ sls, ESN.forward step hZero s u (some ys) rs =
          .ok (ForwardResult.accumulated,
            { s with hidden := (esnCellCompute step hZero s.hidden u rs).2,
                     output := rrAccumulate s.output sls
                       (timeSlice s.washout ys) }) ∧
        sls.length = u.length ∧ ∀ t ∈ sls, t = []) := by
  have hempty : ∀ t ∈ timeSlice s.washout
      (esnCellCompute step hZero s.hidden u rs).1, t = [] := by
    intro t ht
    simp only [timeSlice, esnCellCompute, List.mem_map] at ht
    rcases ht with ⟨traj, htraj, rfl⟩
    rcases cellRunBatch_mem_length step _ u traj htraj with ⟨seq, hseq, hlen⟩
    have hle : traj.length ≤ s.washout := by rw [hlen]; exact hL seq hseq
    exact List.drop_eq_nil_of_le hle
  have hslen : (timeSlice s.washout
      (esnCellCompute step hZero s.hidden u rs).1).length = u.length := by
    simp [timeSlice, esnCellCompute, cellRunBatch_fst_length]
  constructor
  · intro f hInf hmap
    refine ⟨(timeSlice s.washout
        (esnCellCompute step hZero s.hidden u rs).1).map (fun seq => seq.map f),
      ?_, ?_, ?_⟩
    · simp [ESN.forward, hInf, rrPredict, hmap]
    · simp [hslen]
    · intro p hp
      simp only [List.mem_map] at hp
      rcases hp with ⟨t, ht, rfl⟩
      rw [hempty t ht]
      rfl
  · intro hTrain
    refine ⟨timeSlice s.washout (esnCellCompute step hZero s.hidden u rs).1,
      ?_, hslen, hempty⟩
    simp [ESN.forward, hTrain]

/-- Witness for C3 (amended): washout 1 against length-1 sequences — the
inference-mode call returns one empty predicted sequence and no error,
and the training-mode call returns normally, accumulating an empty state
slice. -/
theorem C3_washout_too_long_empty_result_witness :
    esnInfer.training = false ∧ esnInfer.output.w_out = some idMap ∧
    esnFresh.training = true ∧
    (∀ seq ∈ [[(5 : Int)]], seq.length ≤ esnInfer.washout) ∧
    (∃ preds, ESN.forward stepEx 0 esnInfer [[(5 : Int)]] none true =
        .ok (ForwardResult.predictions preds,
          { esnInfer with hidden :=
              (esnCellCompute stepEx 0 esnInfer.hidden [[(5 : Int)]] true).2 }) ∧
      preds.length = ([[(5 : Int)]] : List (List Int)).length ∧
      ∀ p ∈ preds, p = []) ∧
    (∃ sls, ESN.forward stepEx 0 esnFresh [[(5 : Int)]] (some [[(7 : Int)]])
          true =
        .ok (ForwardResult.accumulated,
          { esnFresh with
              hidden :=
                (esnCellCompute stepEx 0 esnFresh.hidden [[(5 : Int)]] true).2,
              output := rrAccumulate esnFresh.output sls
                (timeSlice esnFresh.washout [[(7 : Int)]]) }) ∧
      sls.length = ([[(5 : Int)]] : List (List Int)).length ∧
      ∀ t ∈ sls, t = []) :=
  ⟨rfl, rfl, rfl, by decide,
    (C3_washout_too_long_empty_result stepEx 0 esnInfer [[(5 : Int)]]
      [[(7 : Int)]] true (by decide)).1 idMap rfl rfl,
    (C3_washout_too_long_empty_result stepEx 0 esnFresh [[(5 : Int)]]
      [[(7 : Int)]] true (by decide)).2 rfl⟩

/-- C5: the training flag is a two-state machine — `reset` sets it to
training, a successful `finalize` (one that reached the readout's solve)
sets it to inference, and no forward call changes it. -/
theorem C5_mode_state_machine {M H I O : Type} (step : H → I → H) (hZero : H)
    (solve : List (List (List H) × List (List O)) → (H → O)) (s : ESN M H O) :
    (ESN.reset s).training = true ∧
    (∀ s', ESN.finalize solve s = .ok s' → s'.training = false) ∧
    (∀ (u : List (List I)) y rs r s',
        ESN.forward step hZero s u y rs = .ok (r, s') →
          s'.training = s.training) :=
  ⟨rfl,
   fun s' hok => (finalize_ok_frame solve s s' hok).2.2.2.2.2,
   fun u y rs r s' hok =>
     (forward_ok_frame step hZero s u y rs r s' hok).2.2.2.2⟩

/-- Witness for C5: concrete transitions — reset puts `esnFresh` in
training mode, finalizing `esnTrained` yields the inference-mode
`esnFinalized`, and a training forward call leaves the mode unchanged. -/
theorem C5_mode_state_machine_witness :
    (ESN.reset esnFresh).training = true ∧
    esnFinalized.training = false ∧
    esnAfterFwd.training = esnTrained.training :=
  ⟨(C5_mode_state_machine stepEx (0 : Int) solveEx esnFresh).1,
   (C5_mode_state_machine stepEx (0 : Int) solveEx esnTrained).2.1
     esnFinalized rfl,
   (C5_mode_state_machine stepEx (0 : Int) solveEx esnTrained).2.2
     [[(1 : Int), 2]] (some [[(3 : Int), 4]]) true ForwardResult.accumulated
     esnAfterFwd rfl⟩

/-- C7: `finalize` on a model with zero accumulated statistics raises a
`ModeError`; a freshly constructed and a freshly reset model both have
zero accumulated statistics, so finalizing either fails this way. -/
theorem C7_finalize_no_stats {σ M H O : Type}
    (solve : List (List (List H) × List (List O)) → (H → O))
    (s : ESN M H O) (h : s.output.stats = [])
    (hD iD wo : Nat) (wG winG wbG : GenSpec σ M) (hZero : H) (rng : σ) :
    ESN.finalize solve s = .error PyError.modeError ∧
    (@ESN.init σ M H O hD iD wG winG wbG wo hZero rng).1.output.stats = [] ∧
    (ESN.reset s).output.stats = [] ∧
    ESN.finalize solve (ESN.reset s) = .error PyError.modeError := by
  refine ⟨?_, rfl, rfl, ?_⟩
  · simp [ESN.finalize, rrFinalize, h]
  · simp [ESN.finalize, rrFinalize, ESN.reset, rrReset]

/-- Witness for C7: the freshly constructed `esnFresh` has no accumulated
statistics and finalizing it raises `ModeError`. -/
theorem C7_finalize_no_stats_witness :
    esnFresh.output.stats = ([] : List (List (List Int) × List (List Int))) ∧
    ESN.finalize solveEx esnFresh = .error PyError.modeError :=
  ⟨rfl,
    (C7_finalize_no_stats solveEx esnFresh rfl 1 1 0 (GenSpec.literal (1 : Int))
      (GenSpec.literal 2) (GenSpec.literal 3) (0 : Int) ()).1⟩

/-- C8: matrix resolution happens exactly once, at construction, in the
fixed order internal → input → bias (any shared generator state is
threaded through in exactly that order), and no later operation —
forward, reset, finalize, or reset_hidden — touches the resolved
matrices. -/
theorem C8_generation_once_ordered {σ M H I O : Type} (hD iD wo : Nat)
    (wG winG wbG : GenSpec σ M) (hZero : H) (rng : σ) (step : H → I → H)
    (solve : List (List (List H) × List (List O)) → (H → O)) (s : ESN M H O) :
    (@ESN.init σ M H O hD iD wG winG wbG wo hZero rng).1.w =
        (resolveMatrix wG (MatSize.two hD hD) rng).1 ∧
    (@ESN.init σ M H O hD iD wG winG wbG wo hZero rng).1.w_in =
        (resolveMatrix winG (MatSize.two hD iD)
          (resolveMatrix wG (MatSize.two hD hD) rng).2).1 ∧
    (@ESN.init σ M H O hD iD wG winG wbG wo hZero rng).1.w_bias =
        (resolveMatrix wbG (MatSize.one hD)
          (resolveMatrix winG (MatSize.two hD iD)
            (resolveMatrix wG (MatSize.two hD hD) rng).2).2).1 ∧
    (@ESN.init σ M H O hD iD wG winG wbG wo hZero rng).2 =
        (resolveMatrix wbG (MatSize.one hD)
          (resolveMatrix winG (MatSize.two hD iD)
            (resolveMatrix wG (MatSize.two hD hD) rng).2).2).2 ∧
    ((ESN.reset s).w = s.w ∧ (ESN.reset s).w_in = s.w_in ∧
      (ESN.reset s).w_bias = s.w_bias) ∧
    ((ESN.resetHidden hZero s).w = s.w ∧
      (ESN.resetHidden hZero s).w_in = s.w_in ∧
      (ESN.resetHidden hZero s).w_bias = s.w_bias) ∧
    (∀ s', ESN.finalize solve s = .ok s' →
        s'.w = s.w ∧ s'.w_in = s.w_in ∧ s'.w_bias = s.w_bias) ∧
    (∀ (u : List (List I)) y rs r s',
        ESN.forward step hZero s u y rs = .ok (r, s') →
          s'.w = s.w ∧ s'.w_in = s.w_in ∧ s'.w_bias = s.w_bias) :=
  ⟨rfl, rfl, rfl, rfl, ⟨rfl, rfl, rfl⟩, ⟨rfl, rfl, rfl⟩,
   fun s' hok =>
     ⟨(finalize_ok_frame solve s s' hok).1,
      (finalize_ok_frame solve s s' hok).2.1,
      (finalize_ok_frame solve s s' hok).2.2.1⟩,
   fun u y rs r s' hok =>
     ⟨(forward_ok_frame step hZero s u y rs r s' hok).1,
      (forward_ok_frame step hZero s u y rs r s' hok).2.1,
      (forward_ok_frame step hZero s u y rs r s' hok).2.2.1⟩⟩

/-- Witness for C8: the literal matrices of a concretely constructed
model survive a successful finalize and a training forward call. -/
theorem C8_generation_once_ordered_witness :
    esnFinalized.w = esnTrained.w ∧ esnAfterFwd.w = esnTrained.w :=
  ⟨((C8_generation_once_ordered 1 1 0 (GenSpec.literal (1 : Int))
      (GenSpec.literal 2) (GenSpec.literal 3) (0 : Int) () stepEx solveEx
      esnTrained).2.2.2.2.2.2.1 esnFinalized rfl).1,
   ((C8_generation_once_ordered 1 1 0 (GenSpec.literal (1 : Int))
      (GenSpec.literal 2) (GenSpec.literal 3) (0 : Int) () stepEx solveEx
      esnTrained).2.2.2.2.2.2.2 [[(1 : Int), 2]] (some [[(3 : Int), 4]]) true
      ForwardResult.accumulated esnAfterFwd rfl).1⟩
